import Mathlib

/-!
Shallow embedding of the plugin-recipe HTTP handlers (`pkg/api` recipe file),
the scene-item state container (`SceneItemBase`), and the Slack dashboard
renderer (`renderDashboard`) of the grafana snapshot, together with proofs of
the specification claims about them.

Machine integers are modelled as `Int` with the explicit int64 clamping that
`strconv.Atoi` documents; strings are Lean `String`s (handler parameters) or
`List Char` (substring scanning); Go's index-out-of-range panic is modelled by
`Except GoPanic`.
-/

namespace Grafana

/-! ### Go `strconv.Atoi`

`strconv.Atoi(s)` is `ParseInt(s, 10, 0)` on a 64-bit platform: optional
sign followed by a nonempty run of ASCII digits; on a syntax error it returns
`(0, ErrSyntax)`; on int64 overflow it returns the clamped bound together with
`ErrRange` (so the error is non-nil but the value is NOT zero). We model the
pair (value, err == nil). -/

def maxInt64 : Int := 9223372036854775807

def minInt64 : Int := -9223372036854775808

theorem maxInt64_eq : maxInt64 = 2 ^ 63 - 1 := by norm_num [maxInt64]

theorem minInt64_eq : minInt64 = -(2 ^ 63) := by norm_num [minInt64]

/-- Value of a digit run, accumulator style (the loop `n = n*10 + int(ch)`);
`none` as soon as a non-digit byte is met. -/
def decDigitsAux (acc : Nat) : List Char → Option Nat
  | [] => some acc
  | ch :: rest =>
      if ch.isDigit then decDigitsAux (acc * 10 + (ch.toNat - 48)) rest
      else none

/-- Value of a nonempty all-digit string; `none` if empty or any non-digit. -/
def decDigits : List Char → Option Nat
  | [] => none
  | ch :: rest => decDigitsAux 0 (ch :: rest)

/-- Go `strconv.Atoi`: returns `(value, ok)` where `ok` stands for
`err == nil`. Syntax errors give `(0, false)`; values outside the int64 range
give the clamped bound with `false` (ErrRange). -/
def atoi (s : String) : Int × Bool :=
  match s.data with
  | [] => (0, false)
  | c :: rest =>
      let sd : Bool × List Char :=
        if c = '-' then (true, rest)
        else if c = '+' then (false, rest)
        else (false, c :: rest)
      match decDigits sd.2 with
      | none => (0, false)
      | some n =>
          let v : Int := if sd.1 then -(n : Int) else (n : Int)
          if v > maxInt64 then (maxInt64, false)
          else if v < minInt64 then (minInt64, false)
          else (v, true)

/-! ### Recipe data model (`pkg/plugins/recipes` as used by the handlers)

`RecipeStep` is the Go interface `recipes.RecipeStep` with its three methods;
`Recipe` carries the ordered `Steps` slice and its `ToDto`; the provider is the
registry held on the HTTP server. `Ctx` is the request context
(`*models.ReqContext`), `O` the (ignored) outcome of `Apply`/`Revert`, `RD`
and `SD` the recipe/step DTO transfer shapes — all abstract type parameters,
as the handlers never inspect them. -/

structure RecipeStep (Ctx O SD : Type) where
  apply : Ctx → O
  revert : Ctx → O
  toDto : Ctx → SD

structure Recipe (Ctx O RD SD : Type) where
  steps : List (RecipeStep Ctx O SD)
  toDto : Ctx → RD

structure RecipeProvider (Ctx O RD SD : Type) where
  getAll : List (Recipe Ctx O RD SD)
  getById : String → Option (Recipe Ctx O RD SD)

/-- Body of a `response.JSON` reply from the recipe handlers. -/
inductive Body (RD SD : Type)
  | recipes (dtos : List RD)
  | recipe (dto : RD)
  | step (dto : SD)
deriving DecidableEq

/-- `response.Response`: either `response.JSON(status, body)` or
`response.Error(status, message, nil)`. -/
inductive Response (RD SD : Type)
  | json (status : Nat) (body : Body RD SD)
  | err (status : Nat) (message : String)
deriving DecidableEq

/-- Go's runtime panic on a bad slice index. -/
inductive GoPanic
  | indexOutOfRange
deriving DecidableEq

/-- Go slice indexing `l[i]` with an `int` index: panics unless
`0 ≤ i < len(l)`. -/
def goIndex {α : Type} (l : List α) (i : Int) : Except GoPanic α :=
  if h : 0 ≤ i ∧ i.toNat < l.length then .ok (l.get ⟨i.toNat, h.2⟩)
  else .error .indexOutOfRange

/-- One call made by a handler or its background task on a step, recorded with
the step and the outcome the (ignored) call returned. -/
inductive StepCall (Ctx O SD : Type)
  | applyCall (step : RecipeStep Ctx O SD) (outcome : O)
  | revertCall (step : RecipeStep Ctx O SD) (outcome : O)

def StepCall.outcome {Ctx O SD : Type} : StepCall Ctx O SD → O
  | .applyCall _ o => o
  | .revertCall _ o => o

section Handlers

variable {Ctx O RD SD : Type}

/-- Call trace of the goroutine body of `InstallRecipe`:
`for _, step := range steps { step.Apply(c) }`. -/
def installLoopTrace (c : Ctx) : List (RecipeStep Ctx O SD) → List (StepCall Ctx O SD)
  | [] => []
  | step :: rest => .applyCall step (step.apply c) :: installLoopTrace c rest

/-- Call trace of the goroutine body of `UninstallRecipe`:
`for _, step := range recipe.Steps { step.Revert(c) }` (the closure ranges
over the captured `recipe.Steps`, whose value is the `steps` argument). -/
def uninstallLoopTrace (c : Ctx) : List (RecipeStep Ctx O SD) → List (StepCall Ctx O SD)
  | [] => []
  | step :: rest => .revertCall step (step.revert c) :: uninstallLoopTrace c rest

/-- The detached background task a whole-recipe handler spawns with `go`:
recorded syntactically, NOT yet executed — its call trace is produced
separately by `SpawnedTask.trace`, modelling fire-and-forget. -/
inductive SpawnedTask (Ctx O SD : Type)
  | installLoop (steps : List (RecipeStep Ctx O SD)) (c : Ctx)
  | uninstallLoop (steps : List (RecipeStep Ctx O SD)) (c : Ctx)

def SpawnedTask.trace : SpawnedTask Ctx O SD → List (StepCall Ctx O SD)
  | .installLoop steps c => installLoopTrace c steps
  | .uninstallLoop steps c => uninstallLoopTrace c steps

/-- Result of a whole-recipe handler: the HTTP response it returns to the
caller, plus the background task it spawned (if any). -/
structure HandlerResult (Ctx O RD SD : Type) where
  response : Response RD SD
  task : Option (SpawnedTask Ctx O SD)

def notFoundMsg : String := "Plugin recipe not found with the same id"

def badStepMsg : String := "The step number needs to be an number"

/-- The loop of `GetRecipeList`: `for i, r := range rs { dtos[i] = r.ToDto(c) }`. -/
def recipeListDtos (c : Ctx) : List (Recipe Ctx O RD SD) → List RD
  | [] => []
  | r :: rest => r.toDto c :: recipeListDtos c rest

/-- `GetRecipeList`. -/
def getRecipeList (hs : RecipeProvider Ctx O RD SD) (c : Ctx) : Response RD SD :=
  .json 200 (.recipes (recipeListDtos c hs.getAll))

/-- `GetRecipeByID`. -/
def getRecipeByID (hs : RecipeProvider Ctx O RD SD) (c : Ctx) (recipeID : String) :
    Response RD SD :=
  match hs.getById recipeID with
  | none => .err 404 notFoundMsg
  | some recipe => .json 200 (.recipe (recipe.toDto c))

/-- `InstallRecipe`: resolves the recipe, spawns the forward apply loop with
`go`, and returns the DTO without awaiting the task. -/
def installRecipe (hs : RecipeProvider Ctx O RD SD) (c : Ctx) (recipeID : String) :
    HandlerResult Ctx O RD SD :=
  match hs.getById recipeID with
  | none => ⟨.err 404 notFoundMsg, none⟩
  | some recipe => ⟨.json 200 (.recipe (recipe.toDto c)), some (.installLoop recipe.steps c)⟩

/-- `UninstallRecipe`: same shape, spawning the revert loop. -/
def uninstallRecipe (hs : RecipeProvider Ctx O RD SD) (c : Ctx) (recipeID : String) :
    HandlerResult Ctx O RD SD :=
  match hs.getById recipeID with
  | none => ⟨.err 404 notFoundMsg, none⟩
  | some recipe => ⟨.json 200 (.recipe (recipe.toDto c)), some (.uninstallLoop recipe.steps c)⟩

/-- `ApplyRecipeStep`. Note the source's `if err == nil` branch: the 400 reply
is sent exactly when `strconv.Atoi` SUCCEEDS; on an Atoi error the handler
falls through with the returned (0 or range-clamped) value and indexes
`recipe.Steps` without a bounds check. -/
def applyRecipeStep (hs : RecipeProvider Ctx O RD SD) (c : Ctx)
    (recipeID stepParam : String) :
    Except GoPanic (Response RD SD × Option (StepCall Ctx O SD)) :=
  let r := atoi stepParam
  if r.2 then .ok (.err 400 badStepMsg, none)
  else
    match hs.getById recipeID with
    | none => .ok (.err 404 notFoundMsg, none)
    | some recipe =>
        match goIndex recipe.steps r.1 with
        | .error p => .error p
        | .ok step => .ok (.json 200 (.step (step.toDto c)), some (.applyCall step (step.apply c)))

/-- `RevertRecipeStep`: mirror of `ApplyRecipeStep` with `Revert`. -/
def revertRecipeStep (hs : RecipeProvider Ctx O RD SD) (c : Ctx)
    (recipeID stepParam : String) :
    Except GoPanic (Response RD SD × Option (StepCall Ctx O SD)) :=
  let r := atoi stepParam
  if r.2 then .ok (.err 400 badStepMsg, none)
  else
    match hs.getById recipeID with
    | none => .ok (.err 404 notFoundMsg, none)
    | some recipe =>
        match goIndex recipe.steps r.1 with
        | .error p => .error p
        | .ok step => .ok (.json 200 (.step (step.toDto c)), some (.revertCall step (step.revert c)))

end Handlers

/-! ### `SceneItemBase` (scene/dashboard UI state container)

The claim concerns `setState` only, so the embedding keeps the two pieces of
the object it touches: `this.state` (a record, modelled per-key as a total map
`K → V`, with `Partial<TState>` as `K → Option V`: a key is "present" when it
maps to `some`) and the `ReplaySubject`'s emission history (`subject.next`
appends). The `setParent` call between the two lines only rewrites child
`parent` pointers and never changes `this.state`, so it has no footprint in
this model; the `parent`/`subs`/`isMounted` fields are likewise untouched by
`setState`. -/

structure SceneItemBase (K V : Type) where
  state : K → V
  emitted : List (K → V)

/-- `setState(state)`:
`this.state = { ...this.state, ...state }; this.setParent(); this.subject.next(this.state)`.
Object spread keeps a key's old value exactly when the partial argument does
not carry that key. -/
def SceneItemBase.setState {K V : Type} (item : SceneItemBase K V) (p : K → Option V) :
    SceneItemBase K V :=
  let merged : K → V := fun k =>
    match p k with
    | some v => v
    | none => item.state k
  { state := merged, emitted := item.emitted ++ [merged] }

/-! ### `renderDashboard` (Slack unfurl rendering)

`strings.Index(dashboardURL, "/d/")` scans for the first occurrence of the
pattern; `-1` is modelled as `none`. The render service is an abstract
function returning `result.FilePath` or an error of its own type `ε`; URLs and
paths are `List Char` (Go scans bytes, and the pattern is ASCII). -/

/-- Pattern `"/d/"`. -/
def dPat : List Char := ['/', 'd', '/']

/-- Go `strings.Index s pat` (wrapped in `Option`): position of the first
occurrence of `pat` in `s`, `none` when absent. -/
def indexOf (pat : List Char) : List Char → Option Nat
  | [] => if pat.isPrefixOf ([] : List Char) then some 0 else none
  | c :: rest =>
      if pat.isPrefixOf (c :: rest) then some 0
      else (indexOf pat rest).map (· + 1)

/-- Errors of `renderDashboard`: its own `fmt.Errorf("Invalid dashboard url")`,
or an error propagated from `hs.RenderService.Render`. -/
inductive RenderError (ε : Type)
  | invalidDashboardUrl
  | renderFailed (e : ε)

/-- `renderDashboard(ctx, dashboardURL)`: if `"/d/"` occurs at (first) index
`i`, the path sent to the render service is `dashboardURL[i+1:]`; otherwise
the call fails with `Invalid dashboard url` before reaching the service. -/
def renderDashboard {ε : Type} (render : List Char → Except ε (List Char))
    (dashboardURL : List Char) : Except (RenderError ε) (List Char) :=
  match indexOf dPat dashboardURL with
  | some index =>
      let renderPath := dashboardURL.drop (index + 1)
      match render renderPath with
      | .error e => .error (.renderFailed e)
      | .ok result => .ok result
  | none => .error .invalidDashboardUrl

/-! ### Concrete instances (used by witnesses and counterexamples)

`Ctx := Unit`, outcomes and DTOs are `Nat` tags, so every call is observable:
`stepA` applies to `10`, reverts to `0`, serializes to `100`; `stepB` applies
to `11`, reverts to `1`, serializes to `101`. -/

def stepA : RecipeStep Unit Nat Nat :=
  ⟨fun _ => 10, fun _ => 0, fun _ => 100⟩

def stepB : RecipeStep Unit Nat Nat :=
  ⟨fun _ => 11, fun _ => 1, fun _ => 101⟩

def recipe1 : Recipe Unit Nat Nat Nat := ⟨[stepA], fun _ => 1⟩

def recipe2 : Recipe Unit Nat Nat Nat := ⟨[stepA, stepB], fun _ => 2⟩

/-- A recipe registered under the same id as `recipe1`, with the same DTO but
different steps (hence different step outcomes). -/
def recipe1' : Recipe Unit Nat Nat Nat := ⟨[stepB, stepA], fun _ => 1⟩

def provider1 : RecipeProvider Unit Nat Nat Nat :=
  ⟨[recipe1, recipe2], fun id =>
    if id = "r1" then some recipe1 else if id = "r2" then some recipe2 else none⟩

def provider1' : RecipeProvider Unit Nat Nat Nat :=
  ⟨[recipe1'], fun id => if id = "r1" then some recipe1' else none⟩

/-! ### Helper lemmas -/

theorem installLoopTrace_eq_map {Ctx O SD : Type} (c : Ctx)
    (steps : List (RecipeStep Ctx O SD)) :
    installLoopTrace c steps = steps.map (fun s => .applyCall s (s.apply c)) := by
  induction steps with
  | nil => rfl
  | cons s rest ih => simp [installLoopTrace, ih]

theorem uninstallLoopTrace_eq_map {Ctx O SD : Type} (c : Ctx)
    (steps : List (RecipeStep Ctx O SD)) :
    uninstallLoopTrace c steps = steps.map (fun s => .revertCall s (s.revert c)) := by
  induction steps with
  | nil => rfl
  | cons s rest ih => simp [uninstallLoopTrace, ih]

theorem recipeListDtos_eq_map {Ctx O RD SD : Type} (c : Ctx)
    (rs : List (Recipe Ctx O RD SD)) :
    recipeListDtos c rs = rs.map (fun r => r.toDto c) := by
  induction rs with
  | nil => rfl
  | cons r rest ih => simp [recipeListDtos, ih]

theorem indexOf_found (pat : List Char) :
    ∀ (s : List Char) (i : Nat), indexOf pat s = some i → pat <+: s.drop i := by
  intro s
  induction s with
  | nil =>
      intro i h
      by_cases hp : pat.isPrefixOf ([] : List Char)
      · simp only [indexOf, if_pos hp, Option.some.injEq] at h
        subst h
        exact List.isPrefixOf_iff_prefix.mp hp
      · simp [indexOf, hp] at h
  | cons c rest ih =>
      intro i h
      by_cases hp : pat.isPrefixOf (c :: rest)
      · simp only [indexOf, if_pos hp, Option.some.injEq] at h
        subst h
        exact List.isPrefixOf_iff_prefix.mp hp
      · simp only [indexOf, if_neg hp, Option.map_eq_some'] at h
        obtain ⟨i', hi', rfl⟩ := h
        exact ih i' hi'

theorem indexOf_least (pat : List Char) :
    ∀ (s : List Char) (i : Nat), indexOf pat s = some i →
      ∀ j : Nat, pat <+: s.drop j → i ≤ j := by
  intro s
  induction s with
  | nil =>
      intro i h j _
      by_cases hp : pat.isPrefixOf ([] : List Char)
      · simp only [indexOf, if_pos hp, Option.some.injEq] at h
        omega
      · simp [indexOf, hp] at h
  | cons c rest ih =>
      intro i h j hj
      by_cases hp : pat.isPrefixOf (c :: rest)
      · simp only [indexOf, if_pos hp, Option.some.injEq] at h
        omega
      · simp only [indexOf, if_neg hp, Option.map_eq_some'] at h
        obtain ⟨i', hi', rfl⟩ := h
        match j with
        | 0 =>
            exact absurd (List.isPrefixOf_iff_prefix.mpr hj) hp
        | j' + 1 =>
            have := ih i' hi' j' hj
            omega

theorem indexOf_none_all (pat : List Char) :
    ∀ s : List Char, indexOf pat s = none → ∀ j : Nat, ¬ pat <+: s.drop j := by
  intro s
  induction s with
  | nil =>
      intro h j hj
      by_cases hp : pat.isPrefixOf ([] : List Char)
      · simp [indexOf, hp] at h
      · exact hp (List.isPrefixOf_iff_prefix.mpr (by simpa using hj))
  | cons c rest ih =>
      intro h j hj
      by_cases hp : pat.isPrefixOf (c :: rest)
      · simp [indexOf, hp] at h
      · simp only [indexOf, if_neg hp, Option.map_eq_none'] at h
        match j with
        | 0 => exact hp (List.isPrefixOf_iff_prefix.mpr hj)
        | j' + 1 => exact ih h j' hj

/-- A pattern occurs somewhere in `s` (as a contiguous run) exactly when it is
a head of some tail of `s`. -/
theorem occurs_iff_exists_drop (pat s : List Char) :
    pat <:+: s ↔ ∃ i : Nat, pat <+: s.drop i := by
  constructor
  · rintro ⟨u, v, rfl⟩
    refine ⟨u.length, ?_⟩
    rw [List.append_assoc, List.drop_left]
    exact ⟨v, rfl⟩
  · rintro ⟨i, hi⟩
    exact List.IsInfix.trans ( List.IsPrefix.isInfix hi)
      ( List.IsSuffix.isInfix (List.drop_suffix i s))

theorem indexOf_eq_none_iff (pat s : List Char) :
    indexOf pat s = none ↔ ¬ pat <:+: s := by
  constructor
  · intro h hocc
    obtain ⟨i, hi⟩ := (occurs_iff_exists_drop pat s).mp hocc
    exact indexOf_none_all pat s h i hi
  · intro h
    cases hidx : indexOf pat s with
    | none => rfl
    | some i =>
        exact absurd ((occurs_iff_exists_drop pat s).mpr ⟨i, indexOf_found pat s i hidx⟩) h

/-! ### Claim theorems -/

/-- C1: the claim says a step index `i` outside `[0, len(Steps))` always
yields a 400/404-class response and never a panic or out-of-bounds read. The
code violates it: for `i = 2^63` (outside `[0, 1)` of the one-step `recipe1`),
`strconv.Atoi` range-errors and hands back the clamped value `2^63 - 1` with a
non-nil error, the inverted `err == nil` check lets the handler fall through,
and the unchecked `recipe.Steps[stepNumber]` access panics. Mirror behaviour
for `RevertRecipeStep` at `i = -(2^63) - 1`. -/
theorem c1_step_index_panic :
    applyRecipeStep provider1 () "r1" "9223372036854775808" = .error .indexOutOfRange
    ∧ revertRecipeStep provider1 () "r1" "-9223372036854775809" = .error .indexOutOfRange
    ∧ atoi "9223372036854775808" = (maxInt64, false) :=
  ⟨rfl, rfl, rfl⟩

/-- C2: the claim says the handlers reply 400 exactly when the step-number
parameter is NOT numeric and proceed when it is. The code's `if err == nil`
branch is inverted: the numeric parameter `"0"` gets the 400 reply, while the
non-numeric parameter `"x"` proceeds (Atoi yields 0 with an error) and
executes step 0. -/
theorem c2_parse_check_inverted :
    applyRecipeStep provider1 () "r1" "0" = .ok (.err 400 badStepMsg, none)
    ∧ revertRecipeStep provider1 () "r1" "0" = .ok (.err 400 badStepMsg, none)
    ∧ applyRecipeStep provider1 () "r1" "x" =
        .ok (.json 200 (.step 100), some (.applyCall stepA 10))
    ∧ revertRecipeStep provider1 () "r1" "x" =
        .ok (.json 200 (.step 100), some (.revertCall stepA 0)) :=
  ⟨rfl, rfl, rfl, rfl⟩

/-- C3: the claim says `UninstallRecipe` reverts the steps in descending index
order. The code's loop ranges forward: on the two-step `recipe2` the spawned
task's trace is `Revert(stepA)` then `Revert(stepB)` (outcomes `[0, 1]`),
whereas the descending-order loop the claim describes would produce outcomes
`[1, 0]`. -/
theorem c3_uninstall_order_bug :
    (uninstallRecipe provider1 () "r2").task = some (.uninstallLoop recipe2.steps ())
    ∧ (SpawnedTask.trace (SpawnedTask.uninstallLoop recipe2.steps ())).map StepCall.outcome
        = [0, 1]
    ∧ (uninstallLoopTrace () recipe2.steps.reverse).map StepCall.outcome = [1, 0]
    ∧ ([0, 1] : List Nat) ≠ [1, 0] :=
  ⟨rfl, rfl, rfl, by decide⟩

/-- C4: the whole-recipe loops call `Apply` (resp. `Revert`) on every step in
sequence, whatever each call returns: the trace always has one entry per step,
and the `i`-th entry is the `i`-th step's call, for arbitrary outcome
functions (so no outcome can abort or short-circuit the rest). -/
theorem c4_no_short_circuit (Ctx O SD : Type) (steps : List (RecipeStep Ctx O SD)) (c : Ctx) :
    (installLoopTrace c steps).length = steps.length
    ∧ (uninstallLoopTrace c steps).length = steps.length
    ∧ ∀ i : Nat,
        (installLoopTrace c steps)[i]? = steps[i]?.map (fun s => .applyCall s (s.apply c))
        ∧ (uninstallLoopTrace c steps)[i]? = steps[i]?.map (fun s => .revertCall s (s.revert c)) := by
  refine ⟨?_, ?_, ?_⟩
  · rw [installLoopTrace_eq_map]
    exact List.length_map _ _
  · rw [uninstallLoopTrace_eq_map]
    exact List.length_map _ _
  · intro i
    rw [installLoopTrace_eq_map, uninstallLoopTrace_eq_map]
    constructor <;> simp

/-- C5: `GetRecipeByID`, `InstallRecipe` and `UninstallRecipe` reply 404 with
the not-found message exactly when the provider has no recipe under the id,
and 200 with the recipe's DTO when it does. -/
theorem c5_lookup_status (Ctx O RD SD : Type) (hs : RecipeProvider Ctx O RD SD)
    (c : Ctx) (recipeID : String) :
    (hs.getById recipeID = none →
        getRecipeByID hs c recipeID = .err 404 notFoundMsg
        ∧ (installRecipe hs c recipeID).response = .err 404 notFoundMsg
        ∧ (uninstallRecipe hs c recipeID).response = .err 404 notFoundMsg)
    ∧ ∀ r : Recipe Ctx O RD SD, hs.getById recipeID = some r →
        getRecipeByID hs c recipeID = .json 200 (.recipe (r.toDto c))
        ∧ (installRecipe hs c recipeID).response = .json 200 (.recipe (r.toDto c))
        ∧ (uninstallRecipe hs c recipeID).response = .json 200 (.recipe (r.toDto c)) := by
  constructor
  · intro h
    refine ⟨?_, ?_, ?_⟩ <;> simp [getRecipeByID, installRecipe, uninstallRecipe, h]
  · intro r h
    refine ⟨?_, ?_, ?_⟩ <;> simp [getRecipeByID, installRecipe, uninstallRecipe, h]

/-- Witness for C5 at the concrete registry: the unregistered id `"zz"` gets
404, the registered `"r1"` gets 200 with `recipe1`'s DTO. -/
theorem c5_lookup_status_witness :
    getRecipeByID provider1 () "zz" = .err 404 notFoundMsg
    ∧ getRecipeByID provider1 () "r1" = .json 200 (.recipe 1) :=
  ⟨((c5_lookup_status Unit Nat Nat Nat provider1 () "zz").1 rfl).1,
   ((c5_lookup_status Unit Nat Nat Nat provider1 () "r1").2 recipe1 rfl).1⟩

/-- C6: for a registered recipe, `InstallRecipe` spawns the forward apply
loop, whose trace is exactly one `Apply` call per step, in list (ascending
index) order. -/
theorem c6_install_forward_order (Ctx O RD SD : Type) (hs : RecipeProvider Ctx O RD SD)
    (c : Ctx) (recipeID : String) (r : Recipe Ctx O RD SD)
    (h : hs.getById recipeID = some r) :
    (installRecipe hs c recipeID).task = some (.installLoop r.steps c)
    ∧ SpawnedTask.trace (SpawnedTask.installLoop r.steps c)
        = r.steps.map (fun s => .applyCall s (s.apply c))
    ∧ ∀ i : Nat,
        (SpawnedTask.trace (SpawnedTask.installLoop r.steps c))[i]?
          = r.steps[i]?.map (fun s => .applyCall s (s.apply c)) := by
  refine ⟨?_, ?_, ?_⟩
  · simp [installRecipe, h]
  · simp [SpawnedTask.trace, installLoopTrace_eq_map]
  · intro i
    simp [SpawnedTask.trace, installLoopTrace_eq_map]

/-- Witness for C6 at the two-step `recipe2`: the spawned trace applies
`stepA` (outcome 10) then `stepB` (outcome 11). -/
theorem c6_install_forward_order_witness :
    (installRecipe provider1 () "r2").task = some (.installLoop recipe2.steps ())
    ∧ SpawnedTask.trace (SpawnedTask.installLoop recipe2.steps ())
        = [.applyCall stepA 10, .applyCall stepB 11] :=
  ⟨(c6_install_forward_order Unit Nat Nat Nat provider1 () "r2" recipe2 rfl).1,
   ((c6_install_forward_order Unit Nat Nat Nat provider1 () "r2" recipe2 rfl).2.1).trans rfl⟩

/-- C7: for a registered recipe both whole-recipe handlers return 200 with the
recipe's DTO while the spawned loop is still unexecuted (the handler result
carries the task; its trace is produced separately), and the response is the
same for any other registry/steps with the same DTO — so it cannot depend on
any step's apply/revert outcome. -/
theorem c7_response_independent_of_outcomes (Ctx O RD SD : Type)
    (hs : RecipeProvider Ctx O RD SD) (c : Ctx) (recipeID : String)
    (r : Recipe Ctx O RD SD) (h : hs.getById recipeID = some r) :
    (installRecipe hs c recipeID).response = .json 200 (.recipe (r.toDto c))
    ∧ (uninstallRecipe hs c recipeID).response = .json 200 (.recipe (r.toDto c))
    ∧ (installRecipe hs c recipeID).task = some (.installLoop r.steps c)
    ∧ (uninstallRecipe hs c recipeID).task = some (.uninstallLoop r.steps c)
    ∧ ∀ (hs' : RecipeProvider Ctx O RD SD) (r' : Recipe Ctx O RD SD),
        hs'.getById recipeID = some r' → r'.toDto c = r.toDto c →
        (installRecipe hs' c recipeID).response = (installRecipe hs c recipeID).response
        ∧ (uninstallRecipe hs' c recipeID).response = (uninstallRecipe hs c recipeID).response := by
  refine ⟨?_, ?_, ?_, ?_, ?_⟩ <;>
    simp [installRecipe, uninstallRecipe, h]
  intro hs' r' h' hdto
  simp [installRecipe, uninstallRecipe, h', hdto]

/-- Witness for C7: `provider1'` registers different steps (different
outcomes) under `"r1"` with the same DTO, and both registries produce the same
200 response. -/
theorem c7_response_independent_of_outcomes_witness :
    (installRecipe provider1 () "r1").response = .json 200 (.recipe 1)
    ∧ (installRecipe provider1' () "r1").response = (installRecipe provider1 () "r1").response :=
  ⟨(c7_response_independent_of_outcomes Unit Nat Nat Nat provider1 () "r1" recipe1 rfl).1,
   ((c7_response_independent_of_outcomes Unit Nat Nat Nat provider1 () "r1" recipe1
      rfl).2.2.2.2 provider1' recipe1' rfl rfl).1⟩

/-- C8: `GetRecipeList` replies 200 with the DTO list built by the loop, which
has exactly one entry per recipe of `GetAll`, in the same order, the `i`-th
entry being `ToDto` of the `i`-th recipe. -/
theorem c8_list_all (Ctx O RD SD : Type) (hs : RecipeProvider Ctx O RD SD) (c : Ctx) :
    getRecipeList hs c = .json 200 (.recipes (recipeListDtos c hs.getAll))
    ∧ (recipeListDtos c hs.getAll).length = hs.getAll.length
    ∧ ∀ i : Nat, (recipeListDtos c hs.getAll)[i]? = hs.getAll[i]?.map (fun r => r.toDto c) := by
  refine ⟨rfl, ?_, ?_⟩
  · rw [recipeListDtos_eq_map]
    exact List.length_map _ _
  · intro i
    rw [recipeListDtos_eq_map]
    simp

/-- C9: `setState(p)` overwrites exactly the keys `p` carries: a key mapped by
`p` takes `p`'s value, any other key keeps its previous value, and the merged
state is the value pushed to the subject (what subscribers receive next). -/
theorem c9_setState_merge (K V : Type) (item : SceneItemBase K V) (p : K → Option V) :
    (∀ k v, p k = some v → (item.setState p).state k = v)
    ∧ (∀ k, p k = none → (item.setState p).state k = item.state k)
    ∧ (item.setState p).emitted = item.emitted ++ [(item.setState p).state]
    ∧ (item.setState p).emitted.getLast? = some (item.setState p).state := by
  refine ⟨?_, ?_, rfl, ?_⟩
  · intro k v h
    simp [SceneItemBase.setState, h]
  · intro k h
    simp [SceneItemBase.setState, h]
  · simp [SceneItemBase.setState, List.getLast?_concat]

/-- Witness for C9: a partial state carrying only key 0 sets key 0 to its
value and leaves key 1 at the old value. -/
theorem c9_setState_merge_witness :
    ((SceneItemBase.mk (fun _ => 7) [fun _ => 7]).setState
        (fun k => if k = 0 then some 5 else none)).state 0 = 5
    ∧ ((SceneItemBase.mk (fun _ => 7) [fun _ => 7]).setState
        (fun k => if k = 0 then some 5 else none)).state 1 = 7 :=
  ⟨(c9_setState_merge Nat Nat (SceneItemBase.mk (fun _ => 7) [fun _ => 7])
      (fun k => if k = 0 then some 5 else none)).1 0 5 rfl,
   (c9_setState_merge Nat Nat (SceneItemBase.mk (fun _ => 7) [fun _ => 7])
      (fun k => if k = 0 then some 5 else none)).2.1 1 rfl⟩

/-- C10: `renderDashboard` fails with `Invalid dashboard url` exactly when
`"/d/"` does not occur in the URL; when it occurs first at position `i` (and
`indexOf` does return the least occurrence), the path handed to the render
service is the suffix `url[i+1:]`, one character past the `"/d/"` position. -/
theorem c10_render_path (ε : Type) (render : List Char → Except ε (List Char))
    (url : List Char) :
    (renderDashboard render url = .error .invalidDashboardUrl ↔ ¬ dPat <:+: url)
    ∧ ∀ i : Nat, indexOf dPat url = some i →
        dPat <+: url.drop i
        ∧ (∀ j : Nat, dPat <+: url.drop j → i ≤ j)
        ∧ renderDashboard render url = (render (url.drop (i + 1))).mapError .renderFailed := by
  constructor
  · constructor
    · intro h
      rw [← indexOf_eq_none_iff]
      cases hidx : indexOf dPat url with
      | none => rfl
      | some i =>
          exfalso
          simp only [renderDashboard, hidx] at h
          cases hr : render (url.drop (i + 1)) <;> simp [hr] at h
    · intro hno
      have hidx : indexOf dPat url = none := (indexOf_eq_none_iff dPat url).mpr hno
      simp [renderDashboard, hidx]
  · intro i hidx
    refine ⟨indexOf_found dPat url i hidx, indexOf_least dPat url i hidx, ?_⟩
    simp only [renderDashboard, hidx]
    cases hr : render (url.drop (i + 1)) <;> simp [hr, Except.mapError]

/-- Witness for C10 at `"a/d/b"`: the first `"/d/"` sits at index 1 and the
render service receives the suffix `"d/b"`. -/
theorem c10_render_path_witness :
    renderDashboard (fun p => (.ok p : Except Unit (List Char))) ['a', '/', 'd', '/', 'b']
        = .ok ['d', '/', 'b']
    ∧ dPat <+: (['a', '/', 'd', '/', 'b'] : List Char).drop 1 :=
  ⟨((c10_render_path Unit (fun p => .ok p) ['a', '/', 'd', '/', 'b']).2 1 rfl).2.2.trans rfl,
   ((c10_render_path Unit (fun p => .ok p) ['a', '/', 'd', '/', 'b']).2 1 rfl).1⟩

end Grafana
